import Mathlib

/-!
# Verification of `build.py` (slang-android build orchestration script)

This file gives a shallow embedding of `build.py` and proves properties of it.

Modelling choices:
* Filesystem paths are `String`s joined with `"/"` (pathlib's separator on
  POSIX; we keep `"/"` uniformly).  `Path("") / x` normalises to `x`, which
  `joinPath` reproduces.
* The filesystem is a read-only snapshot `FS`: an existence predicate, a
  directory listing (immediate entry names, as produced by `iterdir`), and an
  `is_dir` predicate on full paths.  The script only reads the filesystem when
  making decisions; its writes (mkdir/rmtree/copy) are recorded as `FsOp`
  events rather than mutating the snapshot.
* The environment is a partial map `Env := String → Option String`.
* External process execution is an oracle `exec : Cmd → Int` giving the exit
  status of each command; `subprocess.run(..., check=True)` raising
  `CalledProcessError` (which is uncaught and terminates the interpreter with
  exit code 1) is modelled by `runStages` stopping at the first command with a
  non-zero status, and `mainRun` returning exit code 1.
* `sorted(paths, reverse=True)` on `pathlib.Path` values compares the
  normalised path string `_str_normcase`: the plain path string on POSIX,
  the lowercased string on Windows.  `sortedDescBy (strNormCase isWindows)`
  reproduces this (an insertion sort; `sorted` is a stable sort, and we only
  ever use the head of the result).
-/

/-- Path join `Path a / b` for a relative segment `b`; `Path("")` is `.`, so joining
onto the empty string yields just `b`. -/
def joinPath (a b : String) : String :=
  if a = "" then b else a ++ "/" ++ b

/-- Read-only snapshot of the filesystem consulted by the script. -/
structure FS where
  pathExists : String → Bool
  listDir : String → List String
  entryIsDir : String → Bool

/-- A real filesystem: entries listed inside a directory exist, and the empty
path does not exist (`os.path.exists("")` is `False`). -/
def FS.wf (fs : FS) : Prop :=
  (∀ d n, n ∈ fs.listDir d → fs.pathExists (joinPath d n) = true) ∧
    fs.pathExists "" = false

/-- Process environment, `os.environ.get`. -/
abbrev Env := String → Option String

/-- Whether `needle` starts `hay` (on character lists). -/
def startsWithL : List Char → List Char → Bool
  | _, [] => true
  | [], _ :: _ => false
  | a :: as, b :: bs => a = b && startsWithL as bs

/-- Whether `needle` occurs somewhere in `hay` (Python's `needle in hay`). -/
def hasSubL (hay needle : List Char) : Bool :=
  match hay with
  | [] => needle.isEmpty
  | _ :: t => startsWithL hay needle || hasSubL t needle

/-- Python `sub in s` for strings. -/
def strContains (s sub : String) : Bool :=
  hasSubL s.toList sub.toList

/-- Python `s.endswith(suf)`. -/
def strEndsWith (s suf : String) : Bool :=
  startsWithL s.toList.reverse suf.toList.reverse

/-- Python `str.lower()` (restricted to the ASCII mapping of `Char.toLower`; the
paths involved here are ASCII). -/
def strToLower (s : String) : String :=
  ⟨s.toList.map Char.toLower⟩

/-- The `pathlib` `_str_normcase` key: the identity on POSIX, lowercasing on
Windows (where path comparison is case-insensitive). -/
def strNormCase (isWindows : Bool) (s : String) : String :=
  if isWindows then strToLower s else s

/-- Strict lexicographic order on character lists by code point — the
comparison Python uses on strings. -/
def charListLt : List Char → List Char → Bool
  | _, [] => false
  | [], _ :: _ => true
  | a :: as, b :: bs =>
    decide (a.toNat < b.toNat) || (decide (a.toNat = b.toNat) && charListLt as bs)

/-- Python's `s < t` on strings. -/
def strLtB (s t : String) : Bool :=
  charListLt s.toList t.toList

/-- Insert `x` into a list already sorted in descending order of `key`. -/
def insertDescBy (key : String → String) (x : String) : List String → List String
  | [] => [x]
  | y :: ys => if strLtB (key y) (key x) then x :: y :: ys else y :: insertDescBy key x ys

/-- Python `sorted(l, reverse=True)` comparing `key` values. -/
def sortedDescBy (key : String → String) : List String → List String
  | [] => []
  | x :: xs => insertDescBy key x (sortedDescBy key xs)

/-!
## The Toolchain Locator (`find_ndk`)
-/

/-- The prioritized environment variables checked first by `find_ndk`. -/
def ndk_env_vars : List String := ["ANDROID_NDK_HOME", "ANDROID_NDK_ROOT", "NDK_HOME"]

/-- One iteration of `find_ndk`'s first loop: the value of `var` if it is set,
non-empty (Python truthiness) and names an existing path. -/
def envVarHit (env : Env) (fs : FS) (var : String) : Option String :=
  match env var with
  | some path => if !path.isEmpty && fs.pathExists path then some path else none
  | none => none

/-- The first loop of `find_ndk`: the first environment variable whose value is set
and names an existing path. -/
def envVarSearch (env : Env) (fs : FS) : List String → Option String
  | [] => none
  | v :: rest =>
    match envVarHit env fs v with
    | some p => some p
    | none => envVarSearch env fs rest

/-- The `sdk_roots` list built by `find_ndk`: the non-empty values of
`ANDROID_HOME` / `ANDROID_SDK_ROOT`, then platform-dependent defaults. -/
def sdkRoots (env : Env) (isWindows : Bool) (home : String) : List String :=
  (["ANDROID_HOME", "ANDROID_SDK_ROOT"].filterMap (fun v =>
    match env v with
    | some p => if p.isEmpty then none else some p
    | none => none)) ++
  (if isWindows then
    [joinPath ((env "LOCALAPPDATA").getD "") "Android/Sdk",
     "C:/Program Files (x86)/Android/android-sdk"]
  else
    [joinPath home "Android/Sdk", joinPath home "Library/Android/sdk"])

/-- The subdirectories of `root/ndk`, as full paths:
`[d for d in ndk_dir.iterdir() if d.is_dir()]`. -/
def ndkSubdirs (fs : FS) (root : String) : List String :=
  ((fs.listDir (joinPath root "ndk")).map (joinPath (joinPath root "ndk"))).filter
    (fun d => fs.entryIsDir d)

/-- The body of `find_ndk`'s second loop for one existing root: prefer the
greatest entry of a versioned `ndk` directory, then a legacy `ndk-bundle`
directory; `none` continues the loop. -/
def scanRoot (fs : FS) (isWindows : Bool) (root : String) : Option String :=
  match (if fs.pathExists (joinPath root "ndk") then
           (sortedDescBy (strNormCase isWindows) (ndkSubdirs fs root)).head?
         else none) with
  | some v => some v
  | none =>
    if fs.pathExists (joinPath root "ndk-bundle") then
      some (joinPath root "ndk-bundle")
    else none

/-- The second loop of `find_ndk` over `sdk_roots`, skipping roots that do not
exist. -/
def scanRoots (fs : FS) (isWindows : Bool) : List String → Option String
  | [] => none
  | root :: rest =>
    if fs.pathExists root then
      match scanRoot fs isWindows root with
      | some v => some v
      | none => scanRoots fs isWindows rest
    else scanRoots fs isWindows rest

/-- The locator `find_ndk()`: environment variables first, then conventional SDK roots.
`isWindows` is `platform.system() == "Windows"`; `home` is `Path.home()`. -/
def find_ndk (env : Env) (fs : FS) (isWindows : Bool) (home : String) : Option String :=
  match envVarSearch env fs ndk_env_vars with
  | some p => some p
  | none => scanRoots fs isWindows (sdkRoots env isWindows home)

/-!
## Configuration constants

`DIST_DIR` and `BUILD_BASE` are `.absolute()` in the script, i.e. resolved
against the process working directory; we model paths relative to that
directory, so the working directory is the empty prefix.
-/

def SLANG_REPO : String := "https://github.com/shader-slang/slang.git"

def DEFAULT_TAG : String := "v2025.24.2"

def ANDROID_ABI : String := "arm64-v8a"

def ANDROID_PLATFORM : String := "android-30"

def DIST_DIR : String := "dist"

def BUILD_BASE : String := "build_slang"

def slang_dir : String := joinPath BUILD_BASE "slang"

def host_build_dir : String := joinPath BUILD_BASE "build-host"

def android_build_dir : String := joinPath BUILD_BASE "build-android"

def host_tools_dir : String := joinPath BUILD_BASE "host-tools"

/-!
## The Staged External Build Runner
-/

/-- An external command: the `argv` list handed to `subprocess.run`. -/
abbrev Cmd := List String

/-- The `git clone` command of the fetch stage. -/
def gitCloneCmd (tag : String) : Cmd :=
  ["git", "clone", "--recursive", "--branch", tag, SLANG_REPO, slang_dir]

def common_flags : List String :=
  ["-DSLANG_ENABLE_GFX=OFF", "-DSLANG_ENABLE_SLANG_RHI=OFF",
   "-DSLANG_ENABLE_SLANGRT=OFF", "-DSLANG_ENABLE_EXAMPLES=OFF",
   "-DSLANG_ENABLE_TESTS=OFF"]

def cmake_host_cmd : Cmd :=
  ["cmake", "-S", slang_dir, "-B", host_build_dir, "-GNinja",
   "-DCMAKE_BUILD_TYPE=Release", "-DSLANG_BUILD_GENERATORS=ON",
   "-DSLANG_LIB_TYPE=STATIC"] ++ common_flags

def cmake_build_host_cmd : Cmd := ["cmake", "--build", host_build_dir]

def cmake_install_cmd : Cmd :=
  ["cmake", "--install", host_build_dir, "--prefix", host_tools_dir,
   "--component", "generators"]

def toolchain_file (ndk : String) : String :=
  joinPath ndk "build/cmake/android.toolchain.cmake"

def cmake_android_cmd (ndk : String) : Cmd :=
  ["cmake", "-S", slang_dir, "-B", android_build_dir, "-GNinja",
   "-DCMAKE_TOOLCHAIN_FILE=" ++ toolchain_file ndk,
   "-DANDROID_ABI=" ++ ANDROID_ABI,
   "-DANDROID_PLATFORM=" ++ ANDROID_PLATFORM,
   "-DCMAKE_BUILD_TYPE=Release", "-DSLANG_LIB_TYPE=SHARED",
   "-DSLANG_GENERATORS_PATH=" ++ joinPath host_tools_dir "bin",
   "-DSLANG_SLANG_LLVM_FLAVOR=DISABLE"] ++ common_flags

def cmake_build_android_cmd : Cmd :=
  ["cmake", "--build", android_build_dir, "--target", "slang"]

/-- A filesystem write performed by the script. -/
inductive FsOp where
  | mkdir (p : String)
  | rmtree (p : String)
  | copyFile (src dst : String)
  | copyTree (src dst : String)
deriving DecidableEq, Repr

/-- Outcome of one run of the script: the external commands invoked in order,
the filesystem writes, the log lines printed by `main`, and the process exit
code. -/
structure RunResult where
  commands : List Cmd
  fsOps : List FsOp
  logs : List String
  exitCode : Nat
deriving DecidableEq, Repr

/-- Run a list of commands in order through `run_cmd`
(`subprocess.run(..., check=True)`): stop at the first non-zero exit status.
Returns the commands actually invoked and whether all of them succeeded. -/
def runStages (exec : Cmd → Int) : List Cmd → List Cmd × Bool
  | [] => ([], true)
  | c :: rest =>
    if exec c = 0 then
      let r := runStages exec rest
      (c :: r.1, r.2)
    else ([c], false)

/-!
## The Artifact Collector
-/

def lib_extensions : List String := [".so", ".a"]

def search_paths : List String :=
  [joinPath android_build_dir "lib", joinPath android_build_dir "bin",
   joinPath (joinPath android_build_dir "Release") "lib",
   joinPath (joinPath android_build_dir "Release") "bin"]

/-- The collection criterion:
`"lib" in item.name and any(item.name.endswith(ext) for ext in lib_extensions)`. -/
def isLibArtifact (name : String) : Bool :=
  strContains name "lib" && lib_extensions.any (fun ext => strEndsWith name ext)

/-- The files copied by the collection loop, as `(full source path, name)`
pairs, in the order they are copied. -/
def collectedPairs (fs : FS) : List (String × String) :=
  (search_paths.filter (fun p => fs.pathExists p)).flatMap
    (fun sp => ((fs.listDir sp).filter isLibArtifact).map (fun n => (joinPath sp n, n)))

/-- The names of the collected binary artifacts. -/
def collectArtifacts (fs : FS) : List String :=
  (collectedPairs fs).map Prod.snd

/-!
## `main` and the entry point
-/

/-- The `--tag` value from the command line, if present. -/
def argvTagValue : List String → Option String
  | "--tag" :: v :: _ => some v
  | _ :: rest => argvTagValue rest
  | [] => none

/-- The tag to build: `--tag`, else `$SLANG_TAG`, else `DEFAULT_TAG`. -/
def getTag (argv : List String) (env : Env) : String :=
  match argvTagValue argv with
  | some t => t
  | none => (env "SLANG_TAG").getD DEFAULT_TAG

def errNoNdkMsg : String :=
  "Error: Could not find Android NDK. Please set ANDROID_NDK_HOME environment variable."

def skipCloneMsg : String := "--- Slang directory exists, skipping clone."

def noArtifactMsg : String := "--- Failed to find libslang.so. Check build logs."

def successMsg : String := "--- Success! Check the 'dist' folder."

/-- Directory setup performed before the pipeline: create `build_slang` if
absent, destroy and recreate `dist`. -/
def preOps (fs : FS) : List FsOp :=
  (if fs.pathExists BUILD_BASE then [] else [FsOp.mkdir BUILD_BASE]) ++
  (if fs.pathExists DIST_DIR then [FsOp.rmtree DIST_DIR] else []) ++
  [FsOp.mkdir DIST_DIR]

/-- The `host_build_dir.mkdir()` call guarded by its existence check. -/
def hostDirOps (fs : FS) : List FsOp :=
  if fs.pathExists host_build_dir then [] else [FsOp.mkdir host_build_dir]

/-- The `android_build_dir.mkdir()` call guarded by its existence check. -/
def androidDirOps (fs : FS) : List FsOp :=
  if fs.pathExists android_build_dir then [] else [FsOp.mkdir android_build_dir]

/-- The banner lines printed after NDK detection. -/
def bannerLogs (ndk : String) : List String :=
  ["--- Detected NDK: " ++ ndk,
   "--- Target ABI: " ++ ANDROID_ABI,
   "--- Target Platform: " ++ ANDROID_PLATFORM]

/-- The function `main()`.  The filesystem snapshot `fs` is the state the script starts
from; reads performed by the script consult this snapshot (the directories the
script itself creates, `build_slang` etc., are queried before being created,
so the snapshot is what those queries see).  An uncaught
`CalledProcessError` terminates the interpreter with exit code 1. -/
def mainRun (env : Env) (fs : FS) (isWindows : Bool) (home : String)
    (exec : Cmd → Int) (tag : String) : RunResult :=
  match find_ndk env fs isWindows home with
  | none => ⟨[], [], [errNoNdkMsg], 1⟩
  | some ndk =>
    let ops0 := preOps fs
    let cloneCmds := if fs.pathExists slang_dir then ([] : List Cmd) else [gitCloneCmd tag]
    let cloneLogs := if fs.pathExists slang_dir then [skipCloneMsg]
                     else ["--- Cloning Slang " ++ tag ++ "..."]
    let r1 := runStages exec cloneCmds
    if r1.2 = false then ⟨r1.1, ops0, bannerLogs ndk ++ cloneLogs, 1⟩ else
    let logs1 := bannerLogs ndk ++ cloneLogs ++ ["--- Building Host Generators..."]
    let ops1 := ops0 ++ hostDirOps fs
    let r2 := runStages exec [cmake_host_cmd, cmake_build_host_cmd, cmake_install_cmd]
    if r2.2 = false then ⟨r1.1 ++ r2.1, ops1, logs1, 1⟩ else
    let logs2 := logs1 ++ ["--- Building Slang for Android..."]
    let ops2 := ops1 ++ androidDirOps fs
    if fs.pathExists (toolchain_file ndk) = false then
      ⟨r1.1 ++ r2.1, ops2,
       logs2 ++ ["Error: Toolchain file not found at " ++ toolchain_file ndk], 1⟩
    else
    let r3 := runStages exec [cmake_android_cmd ndk, cmake_build_android_cmd]
    if r3.2 = false then ⟨r1.1 ++ r2.1 ++ r3.1, ops2, logs2, 1⟩ else
    let pairs := collectedPairs fs
    let copyOps := pairs.map (fun pr => FsOp.copyFile pr.1 (joinPath DIST_DIR pr.2))
    let incOps := (if fs.pathExists (joinPath DIST_DIR "include") then
                     [FsOp.rmtree (joinPath DIST_DIR "include")]
                   else []) ++
                  [FsOp.copyTree (joinPath slang_dir "include") (joinPath DIST_DIR "include")]
    let logs3 := logs2 ++ ["--- Collecting binaries to " ++ DIST_DIR ++ "..."] ++
                 pairs.map (fun pr => "Copied: " ++ pr.2) ++
                 ["Copied include directory."]
    let finalLog := if pairs.isEmpty then noArtifactMsg else successMsg
    ⟨r1.1 ++ r2.1 ++ r3.1, ops2 ++ copyOps ++ incOps, logs3 ++ [finalLog], 0⟩

def usageMsg : String := "Usage: python build.py"

/-- The `if __name__ == "__main__"` entry point: the help flags short-circuit
to a usage message and exit code 0 before `main()` runs. -/
def script (argv : List String) (env : Env) (fs : FS) (isWindows : Bool)
    (home : String) (exec : Cmd → Int) : RunResult :=
  if argv.contains "--help" || argv.contains "-h" then
    ⟨[], [], [usageMsg], 0⟩
  else
    mainRun env fs isWindows home exec (getTag argv env)

/-- Modelled from the spec: "pick the lexicographically-greatest
(case-insensitive)" — the entry that a case-insensitive descending sort puts
first.  This is the spec's reading of the version-selection heuristic, to be
compared with what `find_ndk` actually computes. -/
def ciGreatest (l : List String) : Option String :=
  (sortedDescBy strToLower l).head?

/-- Predicate: `FsOp.rmtree` entries other than the up-front reset of the distribution
directory would be cleanup of partial state; the script performs none. -/
def noCleanupOps (ops : List FsOp) : Bool :=
  ops.all (fun op =>
    match op with
    | FsOp.rmtree p => p == DIST_DIR
    | _ => true)

/-!
## Concrete test fixtures
-/

/-- An environment with no variables set. -/
def envEmpty : Env := fun _ => none

/-- A POSIX home directory used by the concrete scenarios. -/
def homeDir : String := "/home/u"

/-- Filesystem for the version-sort scenario: the default SDK root holds an
`ndk` directory with subdirectories `abc` and `ZZZ`. -/
def fsVers : FS where
  pathExists := fun p =>
    p == "/home/u/Android/Sdk" || p == "/home/u/Android/Sdk/ndk" ||
    p == "/home/u/Android/Sdk/ndk/abc" || p == "/home/u/Android/Sdk/ndk/ZZZ"
  listDir := fun d => if d == "/home/u/Android/Sdk/ndk" then ["abc", "ZZZ"] else []
  entryIsDir := fun p =>
    p == "/home/u/Android/Sdk/ndk/abc" || p == "/home/u/Android/Sdk/ndk/ZZZ"

/-- A filesystem on which nothing exists. -/
def fsNothing : FS where
  pathExists := fun _ => false
  listDir := fun _ => []
  entryIsDir := fun _ => false

/-- Environment where the second and third priority variables are set (to
distinct existing paths) but the first is not. -/
def envTwoNdk : Env := fun v =>
  if v = "ANDROID_NDK_ROOT" then some "/opt/ndk1"
  else if v = "NDK_HOME" then some "/opt/ndk2" else none

/-- Filesystem where both `/opt/ndk1` and `/opt/ndk2` exist. -/
def fsTwoNdk : FS where
  pathExists := fun p => p == "/opt/ndk1" || p == "/opt/ndk2"
  listDir := fun _ => []
  entryIsDir := fun _ => false

/-- Environment with only `ANDROID_NDK_HOME` set. -/
def envNdkHome : Env := fun v =>
  if v = "ANDROID_NDK_HOME" then some "/opt/ndk1" else none

/-- Filesystem where the NDK and the fetch destination (`build_slang/slang`)
already exist. -/
def fsSlangExists : FS where
  pathExists := fun p => p == "/opt/ndk1" || p == "build_slang/slang"
  listDir := fun _ => []
  entryIsDir := fun _ => false

/-- Filesystem where the NDK and its toolchain file exist but no build output
directory does. -/
def fsToolchain : FS where
  pathExists := fun p =>
    p == "/opt/ndk1" || p == "/opt/ndk1/build/cmake/android.toolchain.cmake"
  listDir := fun _ => []
  entryIsDir := fun _ => false

/-- Filesystem for the artifact-collection scenario: only
`build_slang/build-android/lib` exists, holding `libfoo.so`, `other.txt`,
`libbar.a`. -/
def fsArtifacts : FS where
  pathExists := fun p => p == "build_slang/build-android/lib"
  listDir := fun d =>
    if d == "build_slang/build-android/lib" then ["libfoo.so", "other.txt", "libbar.a"]
    else []
  entryIsDir := fun _ => false

/-- Filesystem for the legacy-bundle scenario: the default SDK root exists
with an `ndk-bundle` directory but no `ndk` directory. -/
def fsBundle : FS where
  pathExists := fun p =>
    p == "/home/u/Android/Sdk" || p == "/home/u/Android/Sdk/ndk-bundle"
  listDir := fun _ => []
  entryIsDir := fun _ => false

/-- Execution oracle under which every command succeeds. -/
def execZero : Cmd → Int := fun _ => 0

/-- Execution oracle under which the clone of the default tag fails and
everything else succeeds. -/
def execFailClone : Cmd → Int := fun c => if c = gitCloneCmd DEFAULT_TAG then 1 else 0

/-!
## Order lemmas for the version sort
-/

theorem charListLt_irrefl : ∀ l : List Char, charListLt l l = false
  | [] => rfl
  | a :: as => by simp [charListLt, charListLt_irrefl as]

theorem charListLt_trans {a b c : List Char} (h1 : charListLt a b = true)
    (h2 : charListLt b c = true) : charListLt a c = true := by
  induction a generalizing b c with
  | nil =>
    cases c with
    | nil =>
      cases b with
      | nil => simp [charListLt] at h1
      | cons y ys => simp [charListLt] at h2
    | cons z zs => simp [charListLt]
  | cons x xs ih =>
    cases b with
    | nil => simp [charListLt] at h1
    | cons y ys =>
      cases c with
      | nil => simp [charListLt] at h2
      | cons z zs =>
        simp only [charListLt, Bool.or_eq_true, Bool.and_eq_true,
          decide_eq_true_eq] at h1 h2 ⊢
        rcases h1 with h1 | ⟨e1, l1⟩
        · rcases h2 with h2 | ⟨e2, l2⟩
          · exact Or.inl (by omega)
          · exact Or.inl (by omega)
        · rcases h2 with h2 | ⟨e2, l2⟩
          · exact Or.inl (by omega)
          · exact Or.inr ⟨by omega, ih l1 l2⟩

theorem strLtB_irrefl (s : String) : strLtB s s = false :=
  charListLt_irrefl s.toList

theorem strLtB_trans {s t u : String} (h1 : strLtB s t = true)
    (h2 : strLtB t u = true) : strLtB s u = true :=
  charListLt_trans h1 h2

theorem mem_insertDescBy {key : String → String} {x y : String} :
    ∀ {l : List String}, y ∈ insertDescBy key x l → y = x ∨ y ∈ l := by
  intro l
  induction l with
  | nil => intro h; simp [insertDescBy] at h; exact Or.inl h
  | cons z zs ih =>
    intro h
    rw [insertDescBy] at h
    cases hc : strLtB (key z) (key x) with
    | true =>
      rw [if_pos hc] at h
      rcases List.mem_cons.mp h with h | h
      · exact Or.inl h
      · exact Or.inr h
    | false =>
      rw [if_neg (by simp [hc])] at h
      rcases List.mem_cons.mp h with h | h
      · exact Or.inr (by simp [h])
      · rcases ih h with h' | h'
        · exact Or.inl h'
        · exact Or.inr (by simp [h'])

/-- The head of the descending sort of a non-empty list is a member that no
other member strictly exceeds under the sort key. -/
theorem sortedDescBy_head_max (key : String → String) :
    ∀ (x : String) (xs : List String),
    ∃ m t, sortedDescBy key (x :: xs) = m :: t ∧ m ∈ x :: xs ∧
      ∀ y ∈ x :: xs, strLtB (key m) (key y) = false := by
  intro x xs
  induction xs generalizing x with
  | nil =>
    refine ⟨x, [], rfl, by simp, ?_⟩
    intro y hy
    simp at hy
    simp [hy, strLtB_irrefl]
  | cons x' xs' ih =>
    obtain ⟨m, t, hsort, hmem, hmax⟩ := ih x'
    have hstep : sortedDescBy key (x :: x' :: xs') = insertDescBy key x (m :: t) := by
      rw [sortedDescBy, hsort]
    by_cases hlt : strLtB (key m) (key x) = true
    · refine ⟨x, m :: t, ?_, by simp, ?_⟩
      · rw [hstep, insertDescBy, if_pos hlt]
      · intro y hy
        rcases List.mem_cons.mp hy with hyx | hy'
        · simp [hyx, strLtB_irrefl]
        · cases hxy : strLtB (key x) (key y) with
          | false => rfl
          | true =>
            have : strLtB (key m) (key y) = true := strLtB_trans hlt hxy
            rw [hmax y hy'] at this
            exact absurd this (by simp)
    · have hlt' : strLtB (key m) (key x) = false := by
        cases h : strLtB (key m) (key x)
        · rfl
        · exact absurd h hlt
      refine ⟨m, insertDescBy key x t, ?_, by simp [List.mem_cons.mp hmem], ?_⟩
      · rw [hstep, insertDescBy, if_neg (by simp [hlt'])]
      · intro y hy
        rcases List.mem_cons.mp hy with hyx | hy'
        · simpa [hyx] using hlt'
        · exact hmax y hy'

/-- A `some` head of the descending sort is a member of the list. -/
theorem sortedDescBy_head?_mem {key : String → String} {l : List String}
    {v : String} (h : (sortedDescBy key l).head? = some v) : v ∈ l := by
  cases l with
  | nil => simp [sortedDescBy] at h
  | cons x xs =>
    obtain ⟨m, t, hsort, hmem, _⟩ := sortedDescBy_head_max key x xs
    rw [hsort] at h
    simp at h
    exact h ▸ hmem

/-!
## Lemmas about the Toolchain Locator
-/

/-- A hit of the environment-variable loop satisfies its guard. -/
theorem envVarHit_spec {env : Env} {fs : FS} {v p : String}
    (h : envVarHit env fs v = some p) :
    env v = some p ∧ p.isEmpty = false ∧ fs.pathExists p = true := by
  unfold envVarHit at h
  cases he : env v with
  | none => simp only [he] at h; exact absurd h (by simp)
  | some q =>
    simp only [he] at h
    by_cases hc : (!q.isEmpty && fs.pathExists q) = true
    · rw [if_pos hc] at h
      obtain ⟨h1, h2⟩ := Bool.and_eq_true_iff.mp hc
      cases h
      exact ⟨rfl, by simpa using h1, h2⟩
    · rw [if_neg hc] at h
      exact absurd h (by simp)

/-- A variable whose value is set, non-empty and existing is a hit. -/
theorem envVarHit_pos {env : Env} {fs : FS} {v p : String} (he : env v = some p)
    (hne : p.isEmpty = false) (hex : fs.pathExists p = true) :
    envVarHit env fs v = some p := by
  unfold envVarHit
  simp only [he]
  rw [if_pos (by simp [hne, hex])]

/-- The environment-variable loop skips variables that are not hits. -/
theorem envVarSearch_append {env : Env} {fs : FS} :
    ∀ {vs₁ : List String}, (∀ u ∈ vs₁, envVarHit env fs u = none) →
    ∀ (vs₂ : List String), envVarSearch env fs (vs₁ ++ vs₂) = envVarSearch env fs vs₂ := by
  intro vs₁
  induction vs₁ with
  | nil => intro _ vs₂; rfl
  | cons v vs ih =>
    intro h vs₂
    have hv : envVarHit env fs v = none := h v (by simp)
    simp only [List.cons_append, envVarSearch, hv]
    exact ih (fun u hu => h u (by simp [hu])) vs₂

/-- The result of the environment-variable loop exists on the filesystem. -/
theorem envVarSearch_exists {env : Env} {fs : FS} :
    ∀ {vs : List String} {p : String}, envVarSearch env fs vs = some p →
    fs.pathExists p = true := by
  intro vs
  induction vs with
  | nil => intro p h; exact absurd h (by simp [envVarSearch])
  | cons v rest ih =>
    intro p h
    rw [envVarSearch] at h
    cases hv : envVarHit env fs v with
    | none => rw [hv] at h; exact ih h
    | some q =>
      rw [hv] at h
      cases h
      exact (envVarHit_spec hv).2.2

/-- What a `some` answer of `scanRoot` can be: an entry of the versioned
`ndk` directory, or the existing legacy `ndk-bundle` directory. -/
theorem scanRoot_cases {fs : FS} {w : Bool} {root p : String}
    (h : scanRoot fs w root = some p) :
    p ∈ ndkSubdirs fs root ∨
      (p = joinPath root "ndk-bundle" ∧ fs.pathExists p = true) := by
  unfold scanRoot at h
  by_cases hndk : fs.pathExists (joinPath root "ndk") = true
  · rw [if_pos hndk] at h
    cases hh : (sortedDescBy (strNormCase w) (ndkSubdirs fs root)).head? with
    | some v =>
      rw [hh] at h
      cases h
      exact Or.inl (sortedDescBy_head?_mem hh)
    | none =>
      rw [hh] at h
      by_cases hb : fs.pathExists (joinPath root "ndk-bundle") = true
      · rw [if_pos hb] at h; cases h; exact Or.inr ⟨rfl, hb⟩
      · rw [if_neg hb] at h; exact absurd h (by simp)
  · rw [if_neg hndk] at h
    by_cases hb : fs.pathExists (joinPath root "ndk-bundle") = true
    · rw [if_pos hb] at h; cases h; exact Or.inr ⟨rfl, hb⟩
    · rw [if_neg hb] at h; exact absurd h (by simp)

/-- The root loop skips roots that do not exist. -/
theorem scanRoots_append {fs : FS} {w : Bool} :
    ∀ {rs₁ : List String}, (∀ r ∈ rs₁, fs.pathExists r = false) →
    ∀ (rs₂ : List String), scanRoots fs w (rs₁ ++ rs₂) = scanRoots fs w rs₂ := by
  intro rs₁
  induction rs₁ with
  | nil => intro _ rs₂; rfl
  | cons r rs ih =>
    intro h rs₂
    have hr : fs.pathExists r = false := h r (by simp)
    simp only [List.cons_append, scanRoots, hr]
    simpa using ih (fun u hu => h u (by simp [hu])) rs₂

/-- Any `some` answer of the root loop comes from `scanRoot` at an existing
root of the list. -/
theorem scanRoots_cases {fs : FS} {w : Bool} :
    ∀ {roots : List String} {p : String}, scanRoots fs w roots = some p →
    ∃ r ∈ roots, fs.pathExists r = true ∧ scanRoot fs w r = some p := by
  intro roots
  induction roots with
  | nil => intro p h; exact absurd h (by simp [scanRoots])
  | cons root rest ih =>
    intro p h
    rw [scanRoots] at h
    by_cases hr : fs.pathExists root = true
    · rw [if_pos hr] at h
      cases hs : scanRoot fs w root with
      | some v =>
        rw [hs] at h
        cases h
        exact ⟨root, by simp, hr, hs⟩
      | none =>
        rw [hs] at h
        obtain ⟨r, hmem, hex, hscan⟩ := ih h
        exact ⟨r, by simp [hmem], hex, hscan⟩
    · rw [if_neg hr] at h
      obtain ⟨r, hmem, hex, hscan⟩ := ih h
      exact ⟨r, by simp [hmem], hex, hscan⟩

/-- Entries of `ndkSubdirs` exist on a well-formed filesystem. -/
theorem ndkSubdirs_exists {fs : FS} (hwf : fs.wf) {root p : String}
    (h : p ∈ ndkSubdirs fs root) : fs.pathExists p = true := by
  unfold ndkSubdirs at h
  obtain ⟨hmem, _⟩ := List.mem_filter.mp h
  obtain ⟨n, hn, rfl⟩ := List.mem_map.mp hmem
  exact hwf.1 _ n hn

/-!
## Lemmas about the Staged External Build Runner
-/

/-- If `runStages` reports success, every invoked command succeeded. -/
theorem runStages_ok {exec : Cmd → Int} :
    ∀ {cmds : List Cmd}, (runStages exec cmds).2 = true →
    ∀ c ∈ (runStages exec cmds).1, exec c = 0 := by
  intro cmds
  induction cmds with
  | nil => intro _ c hc; exact absurd hc (by simp [runStages])
  | cons d rest ih =>
    intro hok c hc
    by_cases hd : exec d = 0
    · rw [runStages, if_pos hd] at hok hc
      rcases List.mem_cons.mp hc with rfl | hc'
      · exact hd
      · exact ih hok c hc'
    · rw [runStages, if_neg hd] at hok
      exact absurd hok (by simp)

/-- Every command invoked by `runStages` is from the given stage list. -/
theorem runStages_mem {exec : Cmd → Int} :
    ∀ {cmds : List Cmd} {c : Cmd}, c ∈ (runStages exec cmds).1 → c ∈ cmds := by
  intro cmds
  induction cmds with
  | nil => intro c hc; exact absurd hc (by simp [runStages])
  | cons d rest ih =>
    intro c hc
    by_cases hd : exec d = 0
    · rw [runStages, if_pos hd] at hc
      rcases List.mem_cons.mp hc with rfl | hc'
      · simp
      · simp [ih hc']
    · rw [runStages, if_neg hd] at hc
      simp at hc
      simp [hc]

/-- A failing command invoked by `runStages` is the last one invoked, and the
stage list is reported failed. -/
theorem runStages_fail_last {exec : Cmd → Int} :
    ∀ {cmds : List Cmd} {c : Cmd}, c ∈ (runStages exec cmds).1 → exec c ≠ 0 →
    (runStages exec cmds).2 = false ∧ (runStages exec cmds).1.getLast? = some c := by
  intro cmds
  induction cmds with
  | nil => intro c hc _; exact absurd hc (by simp [runStages])
  | cons d rest ih =>
    intro c hc hfail
    by_cases hd : exec d = 0
    · rw [runStages, if_pos hd] at hc ⊢
      rcases List.mem_cons.mp hc with rfl | hc'
      · exact absurd hd hfail
      · obtain ⟨hf, hl⟩ := ih hc' hfail
        refine ⟨hf, ?_⟩
        show (d :: (runStages exec rest).1).getLast? = some c
        have hne : (runStages exec rest).1 ≠ [] := by
          intro he
          rw [he] at hl
          exact absurd hl (by simp)
        cases hrest : (runStages exec rest).1 with
        | nil => exact absurd hrest hne
        | cons e es => rw [hrest] at hl; simpa using hl
    · rw [runStages, if_neg hd] at hc ⊢
      simp at hc
      simp [hc]

/-- When every command succeeds, `runStages` runs them all and succeeds. -/
theorem runStages_all {exec : Cmd → Int} (h : ∀ c, exec c = 0) :
    ∀ cmds : List Cmd, runStages exec cmds = (cmds, true) := by
  intro cmds
  induction cmds with
  | nil => rfl
  | cons d rest ih => rw [runStages, if_pos (h d), ih]

/-- The first stage of a non-empty list is always invoked. -/
theorem runStages_head (exec : Cmd → Int) (c : Cmd) (cmds : List Cmd) :
    (runStages exec (c :: cmds)).1.head? = some c := by
  by_cases hd : exec c = 0
  · rw [runStages, if_pos hd]; rfl
  · rw [runStages, if_neg hd]; rfl

theorem runStages_nil {exec : Cmd → Int} : runStages exec [] = ([], true) := rfl

theorem noCleanupOps_append (a b : List FsOp) :
    noCleanupOps (a ++ b) = (noCleanupOps a && noCleanupOps b) :=
  List.all_append

theorem noCleanupOps_preOps (fs : FS) : noCleanupOps (preOps fs) = true := by
  unfold preOps
  cases fs.pathExists BUILD_BASE <;> cases fs.pathExists DIST_DIR <;>
    simp [noCleanupOps, DIST_DIR]

theorem noCleanupOps_hostDirOps (fs : FS) : noCleanupOps (hostDirOps fs) = true := by
  unfold hostDirOps
  cases fs.pathExists host_build_dir <;> simp [noCleanupOps]

theorem noCleanupOps_androidDirOps (fs : FS) : noCleanupOps (androidDirOps fs) = true := by
  unfold androidDirOps
  cases fs.pathExists android_build_dir <;> simp [noCleanupOps]

/-- None of the cmake commands is a `git clone` command: their argv starts
with `"cmake"`, not `"git"`. -/
theorem ne_gitClone_of_head {c : Cmd} (h : c.head? = some "cmake") (t : String) :
    c ≠ gitCloneCmd t := by
  intro he
  rw [he] at h
  simp [gitCloneCmd] at h

theorem cmake_host_cmd_head : cmake_host_cmd.head? = some "cmake" := rfl

theorem cmake_build_host_cmd_head : cmake_build_host_cmd.head? = some "cmake" := rfl

theorem cmake_install_cmd_head : cmake_install_cmd.head? = some "cmake" := rfl

theorem cmake_android_cmd_head (ndk : String) :
    (cmake_android_cmd ndk).head? = some "cmake" := rfl

theorem cmake_build_android_cmd_head : cmake_build_android_cmd.head? = some "cmake" := rfl

/-- Every command of the two cmake stage lists differs from any clone
command. -/
theorem stageCmds_ne_gitClone {ndk : String} {c : Cmd} (t : String)
    (hc : c ∈ [cmake_host_cmd, cmake_build_host_cmd, cmake_install_cmd] ∨
          c ∈ [cmake_android_cmd ndk, cmake_build_android_cmd]) :
    c ≠ gitCloneCmd t := by
  rcases hc with hc | hc <;> simp at hc
  · rcases hc with rfl | rfl | rfl
    · exact ne_gitClone_of_head cmake_host_cmd_head t
    · exact ne_gitClone_of_head cmake_build_host_cmd_head t
    · exact ne_gitClone_of_head cmake_install_cmd_head t
  · rcases hc with rfl | rfl
    · exact ne_gitClone_of_head (cmake_android_cmd_head ndk) t
    · exact ne_gitClone_of_head cmake_build_android_cmd_head t

/-- The `getLast?` of an append whose right part ends in `c`. -/
theorem getLast?_append_right {A B : List Cmd} {c : Cmd}
    (hB : B.getLast? = some c) : (A ++ B).getLast? = some c := by
  simp [List.getLast?_append, hB]

/-!
## Claim theorems
-/

/-- C1: whenever one of `ANDROID_NDK_HOME`, `ANDROID_NDK_ROOT`, `NDK_HOME` is
set to a path that exists on the (well-formed) filesystem, `find_ndk` returns
the value of the first such variable in priority order, regardless of the
later variables and of the conventional SDK roots (the statement holds for
every filesystem and home directory, so the roots are never consulted). -/
theorem C1_env_priority (env : Env) (fs : FS) (isWindows : Bool) (home : String)
    (vs₁ : List String) (v : String) (vs₂ : List String) (p : String)
    (hwf : fs.wf) (hvars : ndk_env_vars = vs₁ ++ v :: vs₂)
    (hskip : ∀ u ∈ vs₁, envVarHit env fs u = none)
    (hv : env v = some p) (hex : fs.pathExists p = true) :
    find_ndk env fs isWindows home = some p := by
  have hne : p.isEmpty = false := by
    cases hp : p.isEmpty
    · rfl
    · have hp' : p = "" := (String.isEmpty_iff p).mp hp
      rw [hp', hwf.2] at hex
      exact absurd hex (by simp)
  unfold find_ndk
  rw [hvars, envVarSearch_append hskip, envVarSearch, envVarHit_pos hv hne hex]

/-- Witness for C1: `ANDROID_NDK_ROOT` and `NDK_HOME` both name existing
paths; the first of them wins. -/
theorem C1_env_priority_witness :
    find_ndk envTwoNdk fsTwoNdk false homeDir = some "/opt/ndk1" :=
  C1_env_priority envTwoNdk fsTwoNdk false homeDir
    ["ANDROID_NDK_HOME"] "ANDROID_NDK_ROOT" ["NDK_HOME"] "/opt/ndk1"
    ⟨(fun _ _ h => nomatch h), by decide⟩ rfl (by decide) rfl (by decide)

/-- C2, counterexample: with subdirectories `abc` and `ZZZ` of the versioned
`ndk` directory on a non-Windows system, `find_ndk` returns `.../abc`
(`pathlib` compares POSIX paths case-sensitively, and `'a' > 'Z'` by code
point), while the case-insensitive greatest entry is `.../ZZZ`. -/
theorem C2_counterexample :
    find_ndk envEmpty fsVers false homeDir = some "/home/u/Android/Sdk/ndk/abc" ∧
    ciGreatest (ndkSubdirs fsVers "/home/u/Android/Sdk") =
      some "/home/u/Android/Sdk/ndk/ZZZ" ∧
    ("/home/u/Android/Sdk/ndk/abc" : String) ≠ "/home/u/Android/Sdk/ndk/ZZZ" :=
  ⟨by decide, by decide, by decide⟩

/-- C2, amended: on non-Windows systems the comparison is the case-sensitive
code-point order on the path strings.  When no priority variable matches and
the first existing conventional root has a versioned `ndk` directory with at
least one subdirectory, `find_ndk` returns a subdirectory that no other
subdirectory exceeds in that order (i.e. the lexicographically greatest,
case-sensitively). -/
theorem C2_amended_version_sort (env : Env) (fs : FS) (home : String)
    (rs₁ : List String) (r : String) (rs₂ : List String)
    (henv : envVarSearch env fs ndk_env_vars = none)
    (hroots : sdkRoots env false home = rs₁ ++ r :: rs₂)
    (hskip : ∀ r' ∈ rs₁, fs.pathExists r' = false)
    (hr : fs.pathExists r = true)
    (hndk : fs.pathExists (joinPath r "ndk") = true)
    (hne : ndkSubdirs fs r ≠ []) :
    ∃ m, find_ndk env fs false home = some m ∧ m ∈ ndkSubdirs fs r ∧
      ∀ y ∈ ndkSubdirs fs r, strLtB m y = false := by
  obtain ⟨x, xs, hdir⟩ : ∃ x xs, ndkSubdirs fs r = x :: xs := by
    cases hd : ndkSubdirs fs r with
    | nil => exact absurd hd hne
    | cons x xs => exact ⟨x, xs, rfl⟩
  obtain ⟨m, t, hsort, hmem, hmax⟩ := sortedDescBy_head_max (strNormCase false) x xs
  refine ⟨m, ?_, by rw [hdir]; exact hmem, fun y hy => ?_⟩
  · unfold find_ndk
    simp only [henv]
    rw [hroots, scanRoots_append hskip, scanRoots, if_pos hr]
    have hscan : scanRoot fs false r = some m := by
      unfold scanRoot
      rw [if_pos hndk, hdir, hsort]
      rfl
    simp only [hscan]
  · have hy' : y ∈ x :: xs := by rw [← hdir]; exact hy
    exact hmax y hy'

/-- Witness for C2's amended claim, on the `abc`/`ZZZ` filesystem. -/
theorem C2_amended_version_sort_witness :
    ∃ m, find_ndk envEmpty fsVers false homeDir = some m ∧
      m ∈ ndkSubdirs fsVers "/home/u/Android/Sdk" ∧
      ∀ y ∈ ndkSubdirs fsVers "/home/u/Android/Sdk", strLtB m y = false :=
  C2_amended_version_sort envEmpty fsVers homeDir
    [] "/home/u/Android/Sdk" ["/home/u/Library/Android/sdk"]
    (by decide) (by decide) (by simp) (by decide) (by decide) (by decide)

/-- C4: when `find_ndk` finds nothing it returns `none` (not an exception),
and `main` prints the remediation message and exits with code 1 having
invoked no external command and performed no filesystem write. -/
theorem C4_not_found_aborts (env : Env) (fs : FS) (isWindows : Bool)
    (home : String) (exec : Cmd → Int) (tag : String)
    (h : find_ndk env fs isWindows home = none) :
    mainRun env fs isWindows home exec tag = ⟨[], [], [errNoNdkMsg], 1⟩ := by
  unfold mainRun
  simp only [h]

/-- Witness for C4: the empty environment over the empty filesystem. -/
theorem C4_not_found_aborts_witness :
    mainRun envEmpty fsNothing false homeDir execZero DEFAULT_TAG =
      ⟨[], [], [errNoNdkMsg], 1⟩ :=
  C4_not_found_aborts envEmpty fsNothing false homeDir execZero DEFAULT_TAG (by decide)

/-- C9: when no priority variable matches and the first existing conventional
root has no versioned `ndk` layout (no `ndk` directory, or one with no
subdirectories) but has a legacy `ndk-bundle` directory, `find_ndk` returns
that bundle directory. -/
theorem C9_legacy_bundle (env : Env) (fs : FS) (isWindows : Bool) (home : String)
    (rs₁ : List String) (r : String) (rs₂ : List String)
    (henv : envVarSearch env fs ndk_env_vars = none)
    (hroots : sdkRoots env isWindows home = rs₁ ++ r :: rs₂)
    (hskip : ∀ r' ∈ rs₁, fs.pathExists r' = false)
    (hr : fs.pathExists r = true)
    (hndk : fs.pathExists (joinPath r "ndk") = false ∨ ndkSubdirs fs r = [])
    (hbundle : fs.pathExists (joinPath r "ndk-bundle") = true) :
    find_ndk env fs isWindows home = some (joinPath r "ndk-bundle") := by
  unfold find_ndk
  simp only [henv]
  rw [hroots, scanRoots_append hskip, scanRoots, if_pos hr]
  have hscan : scanRoot fs isWindows r = some (joinPath r "ndk-bundle") := by
    unfold scanRoot
    rcases hndk with h | h
    · simp [h, hbundle]
    · simp [h, hbundle, sortedDescBy]
  simp only [hscan]

/-- Witness for C9: a default SDK root holding only `ndk-bundle`. -/
theorem C9_legacy_bundle_witness :
    find_ndk envEmpty fsBundle false homeDir =
      some "/home/u/Android/Sdk/ndk-bundle" :=
  C9_legacy_bundle envEmpty fsBundle false homeDir
    [] "/home/u/Android/Sdk" ["/home/u/Library/Android/sdk"]
    (by decide) (by decide) (by simp) (by decide) (Or.inl (by decide)) (by decide)

/-- C10: on a well-formed filesystem, every `some` result of `find_ndk` is a
path that exists: the environment branch checks existence, the versioned
branch returns an enumerated entry of an existing directory, and the legacy
branch checks existence. -/
theorem C10_result_exists (env : Env) (fs : FS) (isWindows : Bool)
    (home : String) (p : String) (hwf : fs.wf)
    (h : find_ndk env fs isWindows home = some p) :
    fs.pathExists p = true := by
  unfold find_ndk at h
  cases hv : envVarSearch env fs ndk_env_vars with
  | some q =>
    simp only [hv] at h
    cases h
    exact envVarSearch_exists hv
  | none =>
    simp only [hv] at h
    obtain ⟨r, _, _, hscan⟩ := scanRoots_cases h
    rcases scanRoot_cases hscan with hmem | ⟨_, hex⟩
    · exact ndkSubdirs_exists hwf hmem
    · exact hex

/-- Witness for C10, on the two-variable environment scenario. -/
theorem C10_result_exists_witness : fsTwoNdk.pathExists "/opt/ndk1" = true :=
  C10_result_exists envTwoNdk fsTwoNdk false homeDir "/opt/ndk1"
    ⟨(fun _ _ h => nomatch h), by decide⟩ (by decide)

/-- C6: the collector copies exactly the immediate entries of existing
candidate directories whose name contains `"lib"` and ends with `".so"` or
`".a"`; in particular, from a directory holding `libfoo.so`, `other.txt`,
`libbar.a` it copies exactly `libfoo.so` and `libbar.a`. -/
theorem C6_collector_criterion :
    (∀ (fs : FS) (name : String), name ∈ collectArtifacts fs ↔
      ∃ sp ∈ search_paths, fs.pathExists sp = true ∧ name ∈ fs.listDir sp ∧
        strContains name "lib" = true ∧
        (strEndsWith name ".so" = true ∨ strEndsWith name ".a" = true)) ∧
    collectArtifacts fsArtifacts = ["libfoo.so", "libbar.a"] := by
  constructor
  · intro fs name
    unfold collectArtifacts collectedPairs
    simp only [List.mem_map, List.mem_flatMap, List.mem_filter, isLibArtifact,
      lib_extensions, List.any_cons, List.any_nil, Bool.or_false,
      Bool.and_eq_true, Bool.or_eq_true]
    constructor
    · rintro ⟨⟨src, n⟩, ⟨sp, ⟨hsp, hex⟩, n', ⟨hn', hcrit⟩, heq⟩, rfl⟩
      cases heq
      exact ⟨sp, hsp, hex, hn', hcrit⟩
    · rintro ⟨sp, hsp, hex, hmem, hcrit⟩
      exact ⟨(joinPath sp name, name), ⟨sp, ⟨hsp, hex⟩, name, ⟨hmem, hcrit⟩, rfl⟩, rfl⟩
  · decide

/-- C7: when the pipeline completes every stage (NDK found, every external
command exits 0, the toolchain file exists) but no artifact matches the
collection criteria, `main` logs the warning message and finishes with exit
code 0 — a soft failure, not a crash. -/
theorem C7_soft_failure (env : Env) (fs : FS) (isWindows : Bool) (home : String)
    (exec : Cmd → Int) (tag : String) (ndk : String)
    (hndk : find_ndk env fs isWindows home = some ndk)
    (hexec : ∀ c, exec c = 0)
    (htool : fs.pathExists (toolchain_file ndk) = true)
    (hempty : collectedPairs fs = []) :
    (mainRun env fs isWindows home exec tag).exitCode = 0 ∧
    noArtifactMsg ∈ (mainRun env fs isWindows home exec tag).logs := by
  unfold mainRun
  simp only [hndk]
  simp only [runStages_all hexec, htool, hempty]
  simp

/-- Witness for C7: the NDK is found via `ANDROID_NDK_HOME`, everything
succeeds, and no candidate output directory exists. -/
theorem C7_soft_failure_witness :
    (mainRun envNdkHome fsToolchain false homeDir execZero DEFAULT_TAG).exitCode = 0 ∧
    noArtifactMsg ∈ (mainRun envNdkHome fsToolchain false homeDir execZero DEFAULT_TAG).logs :=
  C7_soft_failure envNdkHome fsToolchain false homeDir execZero DEFAULT_TAG
    "/opt/ndk1" (by decide) (fun _ => rfl) (by decide) (by decide)

/-- C5: when the fetch destination (`build_slang/slang`) already exists on a
run that reaches the fetch stage, no clone command is invoked — the first
command run is the host-generator configure — and the skip log line is
printed instead. -/
theorem C5_skip_clone (env : Env) (fs : FS) (isWindows : Bool) (home : String)
    (exec : Cmd → Int) (tag : String) (ndk : String)
    (hndk : find_ndk env fs isWindows home = some ndk)
    (hslang : fs.pathExists slang_dir = true) :
    (mainRun env fs isWindows home exec tag).commands.head? = some cmake_host_cmd ∧
    gitCloneCmd tag ∉ (mainRun env fs isWindows home exec tag).commands ∧
    skipCloneMsg ∈ (mainRun env fs isWindows home exec tag).logs := by
  have hmemAll : ∀ c ∈ (mainRun env fs isWindows home exec tag).commands,
      c ∈ [cmake_host_cmd, cmake_build_host_cmd, cmake_install_cmd] ∨
      c ∈ [cmake_android_cmd ndk, cmake_build_android_cmd] := by
    intro c hc
    unfold mainRun at hc
    simp only [hndk, hslang, if_true, runStages_nil] at hc
    simp only [show ((([] : List Cmd), true).2 = false) = False by simp, if_false] at hc
    split at hc
    · exact Or.inl (runStages_mem (by simpa using hc))
    · split at hc
      · exact Or.inl (runStages_mem (by simpa using hc))
      · split at hc
        · simp only [RunResult.mk.injEq] at hc
          rcases List.mem_append.mp (by simpa using hc) with h | h
          · exact Or.inl (runStages_mem h)
          · exact Or.inr (runStages_mem h)
        · rcases List.mem_append.mp (by simpa using hc) with h | h
          · exact Or.inl (runStages_mem h)
          · exact Or.inr (runStages_mem h)
  refine ⟨?_, ?_, ?_⟩
  · unfold mainRun
    simp only [hndk, hslang, if_true, runStages_nil]
    simp only [show ((([] : List Cmd), true).2 = false) = False by simp, if_false]
    have hhead := runStages_head exec cmake_host_cmd
      [cmake_build_host_cmd, cmake_install_cmd]
    split
    · simpa using hhead
    · split
      · simpa using hhead
      · split
        · simp [List.head?_append, hhead]
        · simp [List.head?_append, hhead]
  · intro hc
    exact stageCmds_ne_gitClone tag (hmemAll _ hc) rfl
  · unfold mainRun
    simp only [hndk, hslang, if_true, runStages_nil]
    simp only [show ((([] : List Cmd), true).2 = false) = False by simp, if_false]
    split
    · simp [skipCloneMsg]
    · split
      · simp [skipCloneMsg]
      · split
        · simp [skipCloneMsg]
        · simp [skipCloneMsg]

/-- Witness for C5: the slang checkout already exists. -/
theorem C5_skip_clone_witness :
    (mainRun envNdkHome fsSlangExists false homeDir execZero DEFAULT_TAG).commands.head? =
      some cmake_host_cmd ∧
    gitCloneCmd DEFAULT_TAG ∉
      (mainRun envNdkHome fsSlangExists false homeDir execZero DEFAULT_TAG).commands ∧
    skipCloneMsg ∈ (mainRun envNdkHome fsSlangExists false homeDir execZero DEFAULT_TAG).logs :=
  C5_skip_clone envNdkHome fsSlangExists false homeDir execZero DEFAULT_TAG
    "/opt/ndk1" (by decide) (by decide)

/-- C3: any staged command that exits non-zero is the last command invoked
(no later stage runs), the process exits non-zero, and no cleanup is
performed (the only directory removal ever recorded is the up-front reset of
`dist`, which happens before the pipeline starts). -/
theorem C3_fail_fast (env : Env) (fs : FS) (isWindows : Bool) (home : String)
    (exec : Cmd → Int) (tag : String) (c : Cmd)
    (hc : c ∈ (mainRun env fs isWindows home exec tag).commands)
    (hfail : exec c ≠ 0) :
    (mainRun env fs isWindows home exec tag).exitCode ≠ 0 ∧
    (mainRun env fs isWindows home exec tag).commands.getLast? = some c ∧
    noCleanupOps (mainRun env fs isWindows home exec tag).fsOps = true := by
  cases hndk : find_ndk env fs isWindows home with
  | none =>
    unfold mainRun at hc
    simp only [hndk] at hc
    simp at hc
  | some ndk =>
    unfold mainRun at hc ⊢
    simp only [hndk] at hc ⊢
    by_cases h1 : (runStages exec
        (if fs.pathExists slang_dir then ([] : List Cmd) else [gitCloneCmd tag])).2 = false
    · rw [if_pos h1] at hc ⊢
      obtain ⟨_, hlast⟩ := runStages_fail_last (by simpa using hc) hfail
      exact ⟨by simp, by simpa using hlast, by simpa using noCleanupOps_preOps fs⟩
    · have h1' : (runStages exec
          (if fs.pathExists slang_dir then ([] : List Cmd) else [gitCloneCmd tag])).2 = true := by
        simpa using h1
      have hAzero := runStages_ok h1'
      rw [if_neg h1] at hc ⊢
      by_cases h2 : (runStages exec
          [cmake_host_cmd, cmake_build_host_cmd, cmake_install_cmd]).2 = false
      · rw [if_pos h2] at hc ⊢
        rcases List.mem_append.mp (by simpa using hc) with h | h
        · exact absurd (hAzero c h) hfail
        · obtain ⟨_, hlast⟩ := runStages_fail_last h hfail
          refine ⟨by simp, by simpa using getLast?_append_right hlast, ?_⟩
          simpa [noCleanupOps_append] using
            ⟨noCleanupOps_preOps fs, noCleanupOps_hostDirOps fs⟩
      · have h2' : (runStages exec
            [cmake_host_cmd, cmake_build_host_cmd, cmake_install_cmd]).2 = true := by
          simpa using h2
        have hBzero := runStages_ok h2'
        rw [if_neg h2] at hc ⊢
        by_cases ht : fs.pathExists (toolchain_file ndk) = false
        · rw [if_pos ht] at hc ⊢
          rcases List.mem_append.mp (by simpa using hc) with h | h
          · exact absurd (hAzero c h) hfail
          · exact absurd (hBzero c h) hfail
        · rw [if_neg ht] at hc ⊢
          by_cases h3 : (runStages exec
              [cmake_android_cmd ndk, cmake_build_android_cmd]).2 = false
          · rw [if_pos h3] at hc ⊢
            have hc3 : c ∈ (runStages exec
                  (if fs.pathExists slang_dir then ([] : List Cmd) else [gitCloneCmd tag])).1 ∨
                c ∈ (runStages exec
                  [cmake_host_cmd, cmake_build_host_cmd, cmake_install_cmd]).1 ∨
                c ∈ (runStages exec
                  [cmake_android_cmd ndk, cmake_build_android_cmd]).1 := by
              simpa using hc
            rcases hc3 with h | h | h
            · exact absurd (hAzero c h) hfail
            · exact absurd (hBzero c h) hfail
            · obtain ⟨_, hlast⟩ := runStages_fail_last h hfail
              refine ⟨by simp, ?_, ?_⟩
              · show ((runStages exec
                    (if fs.pathExists slang_dir then ([] : List Cmd) else [gitCloneCmd tag])).1 ++
                    (runStages exec
                      [cmake_host_cmd, cmake_build_host_cmd, cmake_install_cmd]).1 ++
                    (runStages exec
                      [cmake_android_cmd ndk, cmake_build_android_cmd]).1).getLast? = some c
                exact getLast?_append_right hlast
              · show noCleanupOps ((preOps fs ++ hostDirOps fs) ++ androidDirOps fs) = true
                rw [noCleanupOps_append, noCleanupOps_append, noCleanupOps_preOps,
                  noCleanupOps_hostDirOps, noCleanupOps_androidDirOps]
                rfl
          · have h3' : (runStages exec
                [cmake_android_cmd ndk, cmake_build_android_cmd]).2 = true := by
              simpa using h3
            have hCzero := runStages_ok h3'
            rw [if_neg h3] at hc
            have hc3 : c ∈ (runStages exec
                  (if fs.pathExists slang_dir then ([] : List Cmd) else [gitCloneCmd tag])).1 ∨
                c ∈ (runStages exec
                  [cmake_host_cmd, cmake_build_host_cmd, cmake_install_cmd]).1 ∨
                c ∈ (runStages exec
                  [cmake_android_cmd ndk, cmake_build_android_cmd]).1 := by
              simpa using hc
            rcases hc3 with h | h | h
            · exact absurd (hAzero c h) hfail
            · exact absurd (hBzero c h) hfail
            · exact absurd (hCzero c h) hfail

/-- Witness for C3: the clone command fails; it is the only and the last
command invoked, the run exits 1, and the only removal is the `dist` reset. -/
theorem C3_fail_fast_witness :
    (mainRun envNdkHome fsTwoNdk false homeDir execFailClone DEFAULT_TAG).exitCode ≠ 0 ∧
    (mainRun envNdkHome fsTwoNdk false homeDir execFailClone DEFAULT_TAG).commands.getLast? =
      some (gitCloneCmd DEFAULT_TAG) ∧
    noCleanupOps (mainRun envNdkHome fsTwoNdk false homeDir execFailClone DEFAULT_TAG).fsOps =
      true :=
  C3_fail_fast envNdkHome fsTwoNdk false homeDir execFailClone DEFAULT_TAG
    (gitCloneCmd DEFAULT_TAG) (by decide) (by decide)

/-- C8: with `--help` or `-h` anywhere on the command line, the script prints
the usage message and exits with code 0, invoking no external process and
performing no filesystem write. -/
theorem C8_help_flag (argv : List String) (env : Env) (fs : FS)
    (isWindows : Bool) (home : String) (exec : Cmd → Int)
    (h : "--help" ∈ argv ∨ "-h" ∈ argv) :
    script argv env fs isWindows home exec = ⟨[], [], [usageMsg], 0⟩ := by
  have hc : (argv.contains "--help" || argv.contains "-h") = true := by
    rcases h with h | h <;> simp [List.contains, List.elem_eq_mem, h]
  unfold script
  rw [if_pos hc]

/-- Witness for C8. -/
theorem C8_help_flag_witness :
    script ["build.py", "--help"] envEmpty fsNothing false homeDir execZero =
      ⟨[], [], [usageMsg], 0⟩ :=
  C8_help_flag ["build.py", "--help"] envEmpty fsNothing false homeDir execZero
    (Or.inl (by decide))
